import Mathlib

/-!
Verification of the `axre` JSON body extractor (`src/types/json.rs`,
`src/errors.rs`) against its natural-language specification.

The embedding models the decode pipeline as pure functions:
* a parsed media type (`Mime`) and request metadata (`RequestMeta`) stand for
  what `req.mime_type()` and the `content-length` header supply;
* the byte stream is a list of items, each either a chunk of bytes or a
  transport error, consumed in order by `aggRecv` (the `while let` loop of
  `JsonBody::poll`); the second component returned by `aggRecv` counts the
  `stream_recv` calls, so "the stream is never read" is `count = 0`;
* the schema parser (`dade::Model::parse_bytes`) is an arbitrary function
  `List Nat → Except E T`.
-/

namespace Axre

/-- A parsed media type, as returned by `req.mime_type()` (the `mime` crate):
top-level type, subtype, and the optional `+suffix` component. -/
structure Mime where
  main : String
  sub : String
  suffix : Option String
deriving Repr, DecidableEq

/-- Bytes are modelled as natural numbers; a chunk is a list of bytes. -/
abbrev Chunk := List Nat

/-- One item yielded by `stream_recv`: either a chunk or a transport error. -/
abbrev StreamItem (P : Type) := Except P Chunk

/-- The byte stream: the items it will yield, in order; the end of the list is
end-of-stream (`stream_recv` returning `None`). -/
abbrev ByteStream (P : Type) := List (StreamItem P)

/-- Request metadata visible to `JsonBody::new`:
`mimeType` is the result of `req.mime_type()` (`.error ()` for an unparsable
content-type header, `.ok none` for an absent one), and `contentLength` is the
raw `content-length` header value when present. -/
structure RequestMeta (P : Type) where
  mimeType : Except Unit (Option Mime)
  contentLength : Option String

/-- `JsonPayloadError` from `src/errors.rs`, parameterised by the schema
error type `E` (`dade::Error`) and the transport error type `P`
(`PayloadError`). -/
inductive JsonPayloadError (E P : Type) where
  | Overflow
  | ContentType
  | Deserialize (e : E)
  | Payload (e : P)
deriving Repr, DecidableEq

/-- `StatusCode::BAD_REQUEST` from ntex, as its numeric value. -/
def BAD_REQUEST : Nat := 400

/-- `StatusCode::INTERNAL_SERVER_ERROR` from ntex, as its numeric value. -/
def INTERNAL_SERVER_ERROR : Nat := 500

/-- `WebResponseError::status_code` for `JsonPayloadError`
(`src/errors.rs` lines 28-37). -/
def status_code {E P : Type} : JsonPayloadError E P → Nat
  | .Overflow => INTERNAL_SERVER_ERROR
  | .ContentType => BAD_REQUEST
  | .Deserialize _ => BAD_REQUEST
  | .Payload _ => BAD_REQUEST

/-- `usize::MAX` on a 64-bit target. -/
def USIZE_MAX : Nat := 2 ^ 64 - 1

/-- `s.parse::<usize>()`: an optional leading `+`, then one or more ASCII
digits, failing on overflow past `usize::MAX`. -/
def parseUsize (s : String) : Option Nat :=
  let cs := match s.data with
    | '+' :: rest => rest
    | cs => cs
  if cs = [] then none
  else if cs.all Char.isDigit then
    let n := cs.foldl (fun a c => a * 10 + (c.toNat - 48)) 0
    if n ≤ USIZE_MAX then some n else none
  else none

/-- The `content-length` pipeline of `JsonBody::new` (lines 139-143):
read the header and parse it as a `usize`, `none` when absent or unparsable. -/
def contentLen {P : Type} (req : RequestMeta P) : Option Nat :=
  req.contentLength.bind parseUsize

/-- The content-type gate of `JsonBody::new` (lines 121-127): json iff the
header parsed to a mime whose subtype is `json`, or whose suffix is `json`,
or which the configured predicate accepts. -/
def isJson {P : Type} (req : RequestMeta P) (ctype : Option (Mime → Bool)) : Bool :=
  match req.mimeType with
  | .ok (some mime) =>
      mime.sub == "json" || mime.suffix == some "json" ||
        (match ctype with
         | some predicate => predicate mime
         | none => false)
  | _ => false

/-- The `JsonBody` state built by `new` and mutated by `limit`:
the fields that matter to `poll` (`fut` starts out `None` and the generic
parser is passed separately). -/
structure JsonBody (E P : Type) where
  limit : Nat
  length : Option Nat
  stream : Option (ByteStream P)
  err : Option (JsonPayloadError E P)

/-- `JsonBody::new` (lines 115-157): reject with `ContentType` when the gate
fails (leaving the payload untaken), otherwise record the parsed
content-length and take the stream; the initial limit is 262 144. -/
def JsonBody.new {E P : Type} (req : RequestMeta P) (stream : ByteStream P)
    (ctype : Option (Mime → Bool)) : JsonBody E P :=
  if isJson req ctype then
    { limit := 262144, length := contentLen req, stream := some stream, err := none }
  else
    { limit := 262144, length := none, stream := none, err := some .ContentType }

/-- `JsonBody::limit` (lines 160-163): replace the limit. -/
def JsonBody.withLimit {E P : Type} (b : JsonBody E P) (l : Nat) : JsonBody E P :=
  { b with limit := l }

/-- The `while let` aggregation loop of `JsonBody::poll` (lines 192-199),
starting from buffer `body`: returns the completed buffer or the error, paired
with the number of `stream_recv` calls made (end-of-stream and the item that
aborts each count as one call). -/
def aggRecv {E P : Type} (limit : Nat) (body : List Nat) :
    ByteStream P → Except (JsonPayloadError E P) (List Nat) × Nat
  | [] => (.ok body, 1)
  | .error e :: _ => (.error (.Payload e), 1)
  | .ok chunk :: rest =>
      if body.length + chunk.length > limit then
        (.error .Overflow, 1)
      else
        let r := aggRecv limit (body ++ chunk) rest
        (r.1, r.2 + 1)

/-- The tail of `JsonBody::poll` (lines 201-204): hand the completed buffer to
`U::parse_bytes`, wrapping a parse failure in `Deserialize`. -/
def finishParse {E P T : Type} (parse : List Nat → Except E T)
    (r : Except (JsonPayloadError E P) (List Nat) × Nat) :
    Except (JsonPayloadError E P) T × Nat :=
  match r.1 with
  | .error e => (.error e, r.2)
  | .ok body =>
      match parse body with
      | .ok u => (.ok u, r.2)
      | .error e => (.error (.Deserialize e), r.2)

/-- `JsonBody::poll` run to completion (lines 172-208): surface a stored
error, then the declared-length pre-check, then aggregate and parse. The
result is paired with the number of `stream_recv` calls. The `none` stream
case models the `unwrap` on line 187, unreachable for states built by `new`
(which sets `err` exactly when it leaves `stream` empty). -/
def JsonBody.poll {E P T : Type} (parse : List Nat → Except E T)
    (b : JsonBody E P) : Except (JsonPayloadError E P) T × Nat :=
  match b.err with
  | some e => (.error e, 0)
  | none =>
      match b.length with
      | some len =>
          if len > b.limit then (.error .Overflow, 0)
          else
            match b.stream with
            | some s => finishParse parse (aggRecv b.limit [] s)
            | none => (.error .Overflow, 0)
      | none =>
          match b.stream with
          | some s => finishParse parse (aggRecv b.limit [] s)
          | none => (.error .Overflow, 0)

/-- `JsonConfig` (lines 60-64). -/
structure JsonConfig where
  limit : Nat
  content_type : Option (Mime → Bool)

/-- `Default for JsonConfig` (lines 83-90): limit 32 768, no predicate. -/
def JsonConfig.default : JsonConfig :=
  { limit := 32768, content_type := none }

/-- The configuration resolution of `Json::from_request` (lines 45-48):
the config registered for the route when present, else `(32768, None)`. -/
def fromRequestParams (cfg : Option JsonConfig) : Nat × Option (Mime → Bool) :=
  match cfg with
  | some c => (c.limit, c.content_type)
  | none => (32768, none)

/-- The whole decode of `Json::from_request` (lines 44-57):
`JsonBody::new(req, payload, ctype).limit(limit)` driven to completion. -/
def decode {E P T : Type} (parse : List Nat → Except E T) (cfg : Option JsonConfig)
    (req : RequestMeta P) (stream : ByteStream P) :
    Except (JsonPayloadError E P) T × Nat :=
  let p := fromRequestParams cfg
  ((JsonBody.new req stream p.2).withLimit p.1).poll parse

/-- The limit actually enforced by the decode that `from_request` builds. -/
def effectiveLimit (cfg : Option JsonConfig) : Nat :=
  ((JsonBody.new (E := Unit) (P := Unit)
      { mimeType := .ok none, contentLength := none } [] (fromRequestParams cfg).2).withLimit
    (fromRequestParams cfg).1).limit

/-- The sequence of buffer states after each `extend_from_slice` performed by
the aggregation loop: the observable mutation trace of the buffer. -/
def bufferTrace {P : Type} (limit : Nat) (body : List Nat) :
    ByteStream P → List (List Nat)
  | [] => []
  | .error _ :: _ => []
  | .ok chunk :: rest =>
      if body.length + chunk.length > limit then []
      else (body ++ chunk) :: bufferTrace limit (body ++ chunk) rest

/-- Total byte count of the chunks of a stream (errors contribute nothing). -/
def sumLen {P : Type} : ByteStream P → Nat
  | [] => 0
  | .error _ :: rest => sumLen rest
  | .ok c :: rest => c.length + sumLen rest

/-- Concatenation of the chunks of a stream. -/
def concatChunks {P : Type} : ByteStream P → List Nat
  | [] => []
  | .error _ :: rest => concatChunks rest
  | .ok c :: rest => c ++ concatChunks rest

/-- A stream consisting only of chunks (no transport errors). -/
def allOk {P : Type} : ByteStream P → Bool
  | [] => true
  | .error _ :: _ => false
  | .ok _ :: rest => allOk rest

/-- The gate condition exactly as the specification words it: proceed iff the
declared media type has subtype `json`, or its suffix component equals `json`,
or the configured predicate (when present) returns true for the parsed media
type; an absent or unparsable content-type header is not json. -/
def gateSpec {P : Type} (req : RequestMeta P) (ctype : Option (Mime → Bool)) : Prop :=
  match req.mimeType with
  | .ok (some mime) =>
      mime.sub = "json" ∨ mime.suffix = some "json" ∨
        (match ctype with
         | some predicate => predicate mime = true
         | none => False)
  | _ => False

/-- Sample parser accepting every buffer, returning its length. -/
def parseOk : List Nat → Except Unit Nat := fun b => .ok b.length

/-- Sample parser rejecting every buffer with schema error `7`. -/
def parseNo : List Nat → Except Nat Nat := fun _ => .error 7

/-- The media type `application/json`. -/
def jsonMime : Mime := { main := "application", sub := "json", suffix := none }

/-- The media type `text/plain`. -/
def plainMime : Mime := { main := "text", sub := "plain", suffix := none }

/-- A request declaring `application/json` and no content-length. -/
def sampleReq : RequestMeta Unit :=
  { mimeType := .ok (some jsonMime), contentLength := none }

/-- A request declaring `text/plain` and no content-length. -/
def textReq : RequestMeta Unit :=
  { mimeType := .ok (some plainMime), contentLength := none }

/-- A request declaring `application/json` and `content-length: 5`. -/
def bigLenReq : RequestMeta Unit :=
  { mimeType := .ok (some jsonMime), contentLength := some "5" }

/-- A route configuration with a 4-byte limit and no predicate. -/
def cfg4 : JsonConfig := { limit := 4, content_type := none }

theorem aggRecv_ok {E P : Type} (limit : Nat) (body : List Nat) (s : ByteStream P)
    (hok : allOk s = true) (hle : body.length + sumLen s ≤ limit) :
    aggRecv (E := E) limit body s = (.ok (body ++ concatChunks s), s.length + 1) := by
  induction s generalizing body with
  | nil => simp [aggRecv, concatChunks]
  | cons x rest ih =>
    cases x with
    | error e => simp [allOk] at hok
    | ok c =>
      simp only [allOk] at hok
      simp only [sumLen] at hle
      have h1 : ¬ body.length + c.length > limit := by omega
      have h2 : (body ++ c).length + sumLen rest ≤ limit := by
        simp [List.length_append]; omega
      simp only [aggRecv, if_neg h1, ih (body ++ c) hok h2, concatChunks,
        List.append_assoc, List.length_cons]

theorem aggRecv_overflow_first {E P : Type} (limit : Nat) (body : List Nat)
    (pre : ByteStream P) (c : Chunk) (post : ByteStream P)
    (hok : allOk pre = true) (hle : body.length + sumLen pre ≤ limit)
    (hgt : limit < body.length + sumLen pre + c.length) :
    aggRecv (E := E) limit body (pre ++ .ok c :: post) =
      (.error .Overflow, pre.length + 1) := by
  induction pre generalizing body with
  | nil =>
    simp only [sumLen] at hle hgt
    have h1 : body.length + c.length > limit := by omega
    simp [aggRecv, h1]
  | cons x rest ih =>
    cases x with
    | error e => simp [allOk] at hok
    | ok c₀ =>
      simp only [allOk] at hok
      simp only [sumLen] at hle hgt
      have h1 : ¬ body.length + c₀.length > limit := by omega
      have h2 : (body ++ c₀).length + sumLen rest ≤ limit := by
        simp [List.length_append]; omega
      have h3 : limit < (body ++ c₀).length + sumLen rest + c.length := by
        simp [List.length_append]; omega
      simp only [List.cons_append, aggRecv, if_neg h1, List.append_eq,
        ih (body ++ c₀) hok h2 h3, List.length_cons]

theorem aggRecv_payload_first {E P : Type} (limit : Nat) (body : List Nat)
    (pre : ByteStream P) (e : P) (post : ByteStream P)
    (hok : allOk pre = true) (hle : body.length + sumLen pre ≤ limit) :
    aggRecv (E := E) limit body (pre ++ .error e :: post) =
      (.error (.Payload e), pre.length + 1) := by
  induction pre generalizing body with
  | nil => simp [aggRecv]
  | cons x rest ih =>
    cases x with
    | error e₀ => simp [allOk] at hok
    | ok c₀ =>
      simp only [allOk] at hok
      simp only [sumLen] at hle
      have h1 : ¬ body.length + c₀.length > limit := by omega
      have h2 : (body ++ c₀).length + sumLen rest ≤ limit := by
        simp [List.length_append]; omega
      simp only [List.cons_append, aggRecv, if_neg h1, List.append_eq,
        ih (body ++ c₀) hok h2, List.length_cons]

theorem aggRecv_overflow_total {E P : Type} (limit : Nat) (body : List Nat)
    (s : ByteStream P) (hok : allOk s = true) (hb : body.length ≤ limit)
    (hgt : limit < body.length + sumLen s) :
    (aggRecv (E := E) limit body s).1 = .error .Overflow := by
  induction s generalizing body with
  | nil => simp only [sumLen] at hgt; omega
  | cons x rest ih =>
    cases x with
    | error e => simp [allOk] at hok
    | ok c =>
      simp only [allOk] at hok
      simp only [sumLen] at hgt
      by_cases h1 : body.length + c.length > limit
      · simp [aggRecv, h1]
      · have h2 : (body ++ c).length ≤ limit := by
          simp [List.length_append]; omega
        have h3 : limit < (body ++ c).length + sumLen rest := by
          simp [List.length_append]; omega
        simp only [aggRecv, if_neg h1]
        exact ih (body ++ c) hok h2 h3

theorem bufferTrace_le {P : Type} (limit : Nat) (body : List Nat) (s : ByteStream P) :
    ∀ b ∈ bufferTrace limit body s, b.length ≤ limit := by
  induction s generalizing body with
  | nil => simp [bufferTrace]
  | cons x rest ih =>
    cases x with
    | error e => simp [bufferTrace]
    | ok c =>
      by_cases h1 : body.length + c.length > limit
      · simp [bufferTrace, h1]
      · simp only [bufferTrace, if_neg h1]
        intro b hb
        rcases List.mem_cons.mp hb with h2 | h2
        · subst h2; simp [List.length_append]; omega
        · exact ih (body ++ c) b h2

theorem finishParse_fst {E P T : Type} (parse : List Nat → Except E T)
    (r : Except (JsonPayloadError E P) (List Nat) × Nat) :
    (finishParse parse r).1 =
      (match r.1 with
       | .error e => .error e
       | .ok body =>
           match parse body with
           | .ok u => .ok u
           | .error e => .error (.Deserialize e)) := by
  rcases r with ⟨r1, n⟩
  cases r1 with
  | error e => simp [finishParse]
  | ok body => cases hp : parse body <;> simp [finishParse, hp]

theorem decode_gate_passed {E P T : Type} (parse : List Nat → Except E T)
    (cfg : Option JsonConfig) (req : RequestMeta P) (s : ByteStream P)
    (hj : isJson req (fromRequestParams cfg).2 = true)
    (hl : ∀ l, contentLen req = some l → l ≤ (fromRequestParams cfg).1) :
    decode parse cfg req s = finishParse parse (aggRecv (fromRequestParams cfg).1 [] s) := by
  cases hcl : contentLen req with
  | none => simp [decode, JsonBody.new, hj, JsonBody.withLimit, JsonBody.poll, hcl]
  | some l =>
    have h1 : ¬ l > (fromRequestParams cfg).1 := Nat.not_lt.mpr (hl l hcl)
    simp [decode, JsonBody.new, hj, JsonBody.withLimit, JsonBody.poll, hcl, h1]

theorem decode_gate_rejected {E P T : Type} (parse : List Nat → Except E T)
    (cfg : Option JsonConfig) (req : RequestMeta P) (s : ByteStream P)
    (hj : isJson req (fromRequestParams cfg).2 = false) :
    decode parse cfg req s = (.error .ContentType, 0) := by
  simp [decode, JsonBody.new, hj, JsonBody.withLimit, JsonBody.poll]

theorem isJson_iff_gateSpec {P : Type} (req : RequestMeta P)
    (ctype : Option (Mime → Bool)) :
    isJson req ctype = true ↔ gateSpec req ctype := by
  cases hm : req.mimeType with
  | error u => simp [isJson, gateSpec, hm]
  | ok o =>
    cases o with
    | none => simp [isJson, gateSpec, hm]
    | some m =>
      cases hc : ctype with
      | none => simp [isJson, gateSpec, hm]
      | some p => simp [isJson, gateSpec, hm, or_assoc]

/-- C1: the aggregation loop keeps the buffer within the configured limit
after every mutation: each buffer state in the mutation trace has length at
most `limit`; and at the first chunk that would push the running total past
the limit the loop returns `Overflow` at once, after exactly `pre.length + 1`
stream reads — the offending chunk is the last item ever requested. -/
theorem C1_aggregator_invariant {E P : Type} (limit : Nat) (s : ByteStream P) :
    (∀ b ∈ bufferTrace limit ([] : List Nat) s, b.length ≤ limit) ∧
    (∀ (pre : ByteStream P) (c : Chunk) (post : ByteStream P),
      s = pre ++ .ok c :: post → allOk pre = true → sumLen pre ≤ limit →
      limit < sumLen pre + c.length →
      aggRecv (E := E) limit [] s = (.error .Overflow, pre.length + 1)) := by
  refine ⟨bufferTrace_le limit [] s, ?_⟩
  intro pre c post hs hok hle hgt
  subst hs
  exact aggRecv_overflow_first limit [] pre c post hok (by simpa using hle)
    (by simpa using hgt)

/-- C1 witness: limit 4, two 3-byte chunks; the trace stays within 4 and the
loop aborts with `Overflow` after reading exactly two items. -/
theorem C1_aggregator_invariant_witness :
    (∀ b ∈ bufferTrace 4 ([] : List Nat)
        ([.ok [1, 1, 1], .ok [1, 1, 1]] : ByteStream Unit), b.length ≤ 4) ∧
    aggRecv (E := Unit) 4 []
        ([.ok [1, 1, 1], .ok [1, 1, 1]] : ByteStream Unit) =
      (.error .Overflow, 2) := by
  have h := C1_aggregator_invariant (E := Unit) 4
    ([.ok [1, 1, 1], .ok [1, 1, 1]] : ByteStream Unit)
  exact ⟨h.1, h.2 [.ok [1, 1, 1]] [1, 1, 1] [] rfl (by decide) (by decide) (by decide)⟩

/-- C2: with a matching content type and no oversized declared length, a body
whose chunks total exactly `limit` bytes is fully aggregated and handed to the
parser (succeeding when the parser accepts), while a body totalling
`limit + 1` bytes fails with `Overflow`. -/
theorem C2_exact_limit_boundary {E P T : Type} (parse : List Nat → Except E T)
    (cfg : JsonConfig) (req : RequestMeta P) (s1 s2 : ByteStream P)
    (hj : isJson req cfg.content_type = true)
    (hl : ∀ l, contentLen req = some l → l ≤ cfg.limit)
    (h1 : allOk s1 = true) (hs1 : sumLen s1 = cfg.limit)
    (h2 : allOk s2 = true) (hs2 : sumLen s2 = cfg.limit + 1) :
    (decode parse (some cfg) req s1).1 =
      (match parse (concatChunks s1) with
       | .ok u => .ok u
       | .error e => .error (.Deserialize e)) ∧
    (decode parse (some cfg) req s2).1 = .error .Overflow := by
  constructor
  · rw [decode_gate_passed parse (some cfg) req s1 hj hl, finishParse_fst]
    simp only [fromRequestParams]
    rw [aggRecv_ok cfg.limit [] s1 h1 (by simp [hs1])]
    simp
  · rw [decode_gate_passed parse (some cfg) req s2 hj hl, finishParse_fst]
    simp only [fromRequestParams]
    rw [aggRecv_overflow_total cfg.limit [] s2 h2 (Nat.zero_le _) (by simp [hs2])]

/-- C2 witness: limit 4; chunks `[1,1] ++ [1,1]` (4 bytes) parse to `.ok 4`
under the length parser, while `[1,1] ++ [1,1,1]` (5 bytes) is `Overflow`. -/
theorem C2_exact_limit_boundary_witness :
    (decode parseOk (some cfg4) sampleReq
        ([.ok [1, 1], .ok [1, 1]] : ByteStream Unit)).1 = .ok 4 ∧
    (decode parseOk (some cfg4) sampleReq
        ([.ok [1, 1], .ok [1, 1, 1]] : ByteStream Unit)).1 = .error .Overflow := by
  have h := C2_exact_limit_boundary parseOk cfg4 sampleReq
    ([.ok [1, 1], .ok [1, 1]] : ByteStream Unit)
    ([.ok [1, 1], .ok [1, 1, 1]] : ByteStream Unit)
    (by decide) (by intro l hl; simp [contentLen, sampleReq] at hl)
    (by decide) (by decide) (by decide) (by decide)
  exact ⟨h.1.trans rfl, h.2⟩

/-- C3: the content-type gate proceeds iff the declared subtype is exactly
`json`, or the suffix equals `json`, or the configured predicate accepts the
parsed media type (an absent or unparsable header is not json); when the gate
rejects, the decode fails with `ContentType` and no further stage runs. -/
theorem C3_gate_decision {E P T : Type} (parse : List Nat → Except E T)
    (cfg : Option JsonConfig) (req : RequestMeta P) (s : ByteStream P) :
    (isJson req (fromRequestParams cfg).2 = true ↔
      gateSpec req (fromRequestParams cfg).2) ∧
    (¬ gateSpec req (fromRequestParams cfg).2 →
      decode parse cfg req s = (.error .ContentType, 0)) := by
  refine ⟨isJson_iff_gateSpec req (fromRequestParams cfg).2, fun hg => ?_⟩
  have hj : isJson req (fromRequestParams cfg).2 = false := by
    cases hb : isJson req (fromRequestParams cfg).2 with
    | false => rfl
    | true => exact absurd ((isJson_iff_gateSpec req (fromRequestParams cfg).2).mp hb) hg
  exact decode_gate_rejected parse cfg req s hj

/-- C3 witness: a `text/plain` request fails the gate and decodes to
`ContentType` with zero stream reads. -/
theorem C3_gate_decision_witness :
    (isJson textReq (fromRequestParams (some cfg4)).2 = true ↔
      gateSpec textReq (fromRequestParams (some cfg4)).2) ∧
    decode parseOk (some cfg4) textReq ([.ok [1]] : ByteStream Unit) =
      (.error .ContentType, 0) := by
  have h := C3_gate_decision parseOk (some cfg4) textReq
    ([.ok [1]] : ByteStream Unit)
  refine ⟨h.1, h.2 ?_⟩
  simp [gateSpec, textReq, plainMime, fromRequestParams, cfg4]

/-- C4: when the content type does not match, the decode fails with
`ContentType` and the stream is left untouched — zero `stream_recv` calls. -/
theorem C4_reject_reads_nothing {E P T : Type} (parse : List Nat → Except E T)
    (cfg : Option JsonConfig) (req : RequestMeta P) (s : ByteStream P)
    (hj : isJson req (fromRequestParams cfg).2 = false) :
    decode parse cfg req s = (.error .ContentType, 0) :=
  decode_gate_rejected parse cfg req s hj

/-- C4 witness: the `text/plain` request decodes to `ContentType` with zero
reads even though the stream holds a chunk. -/
theorem C4_reject_reads_nothing_witness :
    decode parseOk (some cfg4) textReq ([.ok [1]] : ByteStream Unit) =
      (.error .ContentType, 0) :=
  C4_reject_reads_nothing parseOk (some cfg4) textReq
    ([.ok [1]] : ByteStream Unit) (by decide)

/-- C5: with the gate passed, a content-length that parses to a value above
the limit fails immediately with `Overflow` and zero stream reads, while an
absent or unparsable content-length skips the pre-check and the decode equals
the aggregate-then-parse run. -/
theorem C5_length_precheck {E P T : Type} (parse : List Nat → Except E T)
    (cfg : JsonConfig) (req : RequestMeta P) (s : ByteStream P)
    (hj : isJson req cfg.content_type = true) :
    (∀ l, contentLen req = some l → cfg.limit < l →
      decode parse (some cfg) req s = (.error .Overflow, 0)) ∧
    (contentLen req = none →
      decode parse (some cfg) req s = finishParse parse (aggRecv cfg.limit [] s)) := by
  constructor
  · intro l hcl hgt
    simp [decode, JsonBody.new, hj, JsonBody.withLimit, JsonBody.poll,
      fromRequestParams, hcl, hgt]
  · intro hcl
    exact decode_gate_passed parse (some cfg) req s hj
      (by intro l hl; rw [hcl] at hl; exact absurd hl (by simp))

/-- C5 witness: `content-length: 5` against limit 4 is `Overflow` with zero
reads; with no content-length the decode runs the aggregator and parses. -/
theorem C5_length_precheck_witness :
    decode parseOk (some cfg4) bigLenReq ([.ok [1]] : ByteStream Unit) =
      (.error .Overflow, 0) ∧
    decode parseOk (some cfg4) sampleReq ([.ok [1]] : ByteStream Unit) = (.ok 1, 2) := by
  constructor
  · exact (C5_length_precheck parseOk cfg4 bigLenReq
      ([.ok [1]] : ByteStream Unit) (by decide)).1 5 (by decide) (by decide)
  · exact ((C5_length_precheck parseOk cfg4 sampleReq
      ([.ok [1]] : ByteStream Unit) (by decide)).2
        (by simp [contentLen, sampleReq])).trans rfl

/-- C6: if the stream yields a transport error after any number of in-limit
chunks, the decode is `Payload` wrapping that error, for every parser — the
partial buffer is discarded and never parsed. -/
theorem C6_transport_error {E P T : Type} (cfg : JsonConfig) (req : RequestMeta P)
    (pre : ByteStream P) (e : P) (post : ByteStream P)
    (hj : isJson req cfg.content_type = true)
    (hl : ∀ l, contentLen req = some l → l ≤ cfg.limit)
    (hok : allOk pre = true) (hfit : sumLen pre ≤ cfg.limit) :
    ∀ parse : List Nat → Except E T,
      (decode parse (some cfg) req (pre ++ .error e :: post)).1 =
        .error (.Payload e) := by
  intro parse
  rw [decode_gate_passed parse (some cfg) req (pre ++ .error e :: post) hj hl,
    finishParse_fst]
  simp only [fromRequestParams]
  rw [aggRecv_payload_first cfg.limit [] pre e post hok (by simpa using hfit)]

/-- C6 witness: one valid chunk then a transport error yields `Payload`
wrapping that error. -/
theorem C6_transport_error_witness :
    (decode parseOk (some cfg4) sampleReq
        ([.ok [1], .error ()] : ByteStream Unit)).1 = .error (.Payload ()) :=
  C6_transport_error cfg4 sampleReq [.ok [1]] () []
    (by decide) (by intro l hl; simp [contentLen, sampleReq] at hl)
    (by decide) (by decide) parseOk

/-- C7: a completed in-limit buffer is handed to the parser; a parser failure
becomes `Deserialize` wrapping the error unchanged, a parser success becomes
`Success`, and the outcome is never `Overflow` or `ContentType`. -/
theorem C7_schema_passthrough {E P T : Type} (parse : List Nat → Except E T)
    (cfg : JsonConfig) (req : RequestMeta P) (s : ByteStream P)
    (hj : isJson req cfg.content_type = true)
    (hl : ∀ l, contentLen req = some l → l ≤ cfg.limit)
    (hok : allOk s = true) (hfit : sumLen s ≤ cfg.limit) :
    (decode parse (some cfg) req s).1 =
      (match parse (concatChunks s) with
       | .ok u => .ok u
       | .error e => .error (.Deserialize e)) ∧
    (decode parse (some cfg) req s).1 ≠ .error .Overflow ∧
    (decode parse (some cfg) req s).1 ≠ .error .ContentType := by
  have hd : (decode parse (some cfg) req s).1 =
      (match parse (concatChunks s) with
       | .ok u => .ok u
       | .error e => .error (.Deserialize e)) := by
    rw [decode_gate_passed parse (some cfg) req s hj hl, finishParse_fst]
    simp only [fromRequestParams]
    rw [aggRecv_ok cfg.limit [] s hok (by simpa using hfit)]
    simp
  refine ⟨hd, ?_, ?_⟩ <;> rw [hd] <;> cases parse (concatChunks s) <;> simp

/-- C7 witness: a 2-byte body parses to `.ok 2` under the accepting parser,
and to `Deserialize 7` (the schema error unchanged) under the rejecting one. -/
theorem C7_schema_passthrough_witness :
    (decode parseOk (some cfg4) sampleReq ([.ok [1, 1]] : ByteStream Unit)).1 =
      .ok 2 ∧
    (decode parseNo (some cfg4) sampleReq ([.ok [1, 1]] : ByteStream Unit)).1 =
      .error (.Deserialize 7) := by
  constructor
  · exact (C7_schema_passthrough parseOk cfg4 sampleReq
      ([.ok [1, 1]] : ByteStream Unit) (by decide)
      (by intro l hl; simp [contentLen, sampleReq] at hl)
      (by decide) (by decide)).1.trans rfl
  · exact (C7_schema_passthrough parseNo cfg4 sampleReq
      ([.ok [1, 1]] : ByteStream Unit) (by decide)
      (by intro l hl; simp [contentLen, sampleReq] at hl)
      (by decide) (by decide)).1.trans rfl

/-- C8: the boundary status-code mapping is total over the four error kinds:
`ContentType`, `Deserialize` and `Payload` map to 400 and `Overflow` maps
to 500. -/
theorem C8_status_mapping {E P : Type} :
    status_code (E := E) (P := P) .Overflow = 500 ∧
    status_code (E := E) (P := P) .ContentType = 400 ∧
    (∀ e : E, status_code (P := P) (.Deserialize e) = 400) ∧
    (∀ e : P, status_code (E := E) (.Payload e) = 400) := by
  refine ⟨rfl, rfl, fun e => rfl, fun e => rfl⟩

/-- C10: when the gate passes, the pre-check passes and the stream ends with
no chunk, the empty buffer goes to the parser with no special-casing: the
outcome is the parse result of the empty byte sequence, never `Overflow` or
`Payload`. -/
theorem C10_empty_body {E P T : Type} (parse : List Nat → Except E T)
    (cfg : JsonConfig) (req : RequestMeta P)
    (hj : isJson req cfg.content_type = true)
    (hl : ∀ l, contentLen req = some l → l ≤ cfg.limit) :
    (decode parse (some cfg) req ([] : ByteStream P)).1 =
      (match parse [] with
       | .ok u => .ok u
       | .error e => .error (.Deserialize e)) ∧
    (decode parse (some cfg) req ([] : ByteStream P)).1 ≠ .error .Overflow ∧
    ∀ e : P, (decode parse (some cfg) req ([] : ByteStream P)).1 ≠
      .error (.Payload e) := by
  have hd : (decode parse (some cfg) req ([] : ByteStream P)).1 =
      (match parse [] with
       | .ok u => .ok u
       | .error e => .error (.Deserialize e)) := by
    rw [decode_gate_passed parse (some cfg) req [] hj hl, finishParse_fst]
    simp only [fromRequestParams]
    rw [aggRecv_ok cfg.limit [] [] rfl (by simp [sumLen])]
    simp [concatChunks]
  refine ⟨hd, ?_, fun e => ?_⟩ <;> rw [hd] <;> cases parse [] <;> simp

/-- C10 witness: an empty stream with the accepting parser resolves to the
parse of the empty buffer, `.ok 0`. -/
theorem C10_empty_body_witness :
    (decode parseOk (some cfg4) sampleReq ([] : ByteStream Unit)).1 = .ok 0 := by
  exact (C10_empty_body parseOk cfg4 sampleReq (by decide)
    (by intro l hl; simp [contentLen, sampleReq] at hl)).1.trans rfl

/-- C9 counterexample: with no configuration object supplied, the decode that
`from_request` builds enforces a 32 768-byte limit, not the 262 144-byte
internal fallback: a single 32 769-byte chunk is rejected with `Overflow`,
which a 262 144-byte limit would have accepted. -/
theorem decode_noconfig_overflow (c : Chunk) (hc : 32768 < c.length) :
    (decode parseOk none sampleReq ([.ok c] : ByteStream Unit)).1 = .error .Overflow := by
  rw [decode_gate_passed parseOk none sampleReq ([.ok c] : ByteStream Unit) (by decide)
      (by intro l hl; simp [contentLen, sampleReq] at hl), finishParse_fst]
  simp only [fromRequestParams]
  rw [aggRecv_overflow_total 32768 [] ([.ok c] : ByteStream Unit) rfl (by simp)
      (by simpa [sumLen] using hc)]

theorem C9_dual_default_counterexample :
    effectiveLimit none = 32768 ∧ effectiveLimit none ≠ 262144 ∧
    (decode parseOk none sampleReq
        ([.ok (List.replicate 32769 0)] : ByteStream Unit)).1 = .error .Overflow :=
  ⟨rfl, by decide,
    decode_noconfig_overflow (List.replicate 32769 0)
      (by rw [List.length_replicate]; omega)⟩

/-- C9 amended: the configuration object defaults to a 32 768-byte limit, and
when no configuration object is supplied `from_request` also falls back to a
32 768-byte limit for the decode; the 262 144-byte figure is only the initial
`JsonBody` limit at construction, always overridden by the `limit` call. -/
theorem C9_limit_defaults :
    JsonConfig.default.limit = 32768 ∧
    (∀ cfg : Option JsonConfig,
      effectiveLimit cfg =
        match cfg with
        | some c => c.limit
        | none => 32768) ∧
    (∀ (req : RequestMeta Unit) (s : ByteStream Unit) (ctype : Option (Mime → Bool)),
      (JsonBody.new (E := Unit) req s ctype).limit = 262144 ∧
      ∀ l, ((JsonBody.new (E := Unit) req s ctype).withLimit l).limit = l) := by
  refine ⟨rfl, fun cfg => ?_, fun req s ctype => ⟨?_, fun l => rfl⟩⟩
  · cases cfg <;> rfl
  · unfold JsonBody.new
    split <;> rfl

end Axre
